import Mathlib

/-!
Verification of the PDF-processing job pipeline (`PDFProcessor` in
`src/components/JobMonitor.tsx` and its route handlers).

The TypeScript source is shallowly embedded: the in-memory job registry
(`Map<string, ProcessingJob>`) becomes a list of job records with unique ids,
`Object.assign`-style partial updates become an explicit patch type, the
external adapters (archive extraction, HTML→PDF rendering, PDF merging) become
an environment record describing their observable outcomes, and
`processArchive` becomes a function from that environment to the sequence of
registry states it writes plus the value/exception it returns.
Node's `path.join` (as used by `downloadFile`) is embedded as segment-list
concatenation followed by `.`/`..` resolution.
-/

/-! ### Kernel-computable string primitives -/

/-- Split a character list at every occurrence of `c` (the splitting model of
`String.split` on a one-character separator). -/
def splitOnChar (c : Char) : List Char → List (List Char)
  | [] => [[]]
  | x :: xs =>
    match splitOnChar c xs with
    | [] => [[]]
    | y :: ys => if x = c then [] :: y :: ys else (x :: y) :: ys

/-- `suffix` is a suffix of `l`. -/
def charListEndsWith (l suffix : List Char) : Bool :=
  suffix == l.drop (l.length - suffix.length)

/-- ASCII-wise `toLowerCase`. -/
def lowerStr (s : String) : String := String.mk (s.data.map Char.toLower)

/-! ### Paths: `path.join` with dot-segment resolution, for `downloadFile` -/

/-- Resolve `.` and `..` segments against an absolute base path given as a
segment list, the way Node's `path.join`/normalize does for absolute paths
(a `..` at the root is dropped). -/
def resolveSegs (acc : List String) : List String → List String
  | [] => acc
  | s :: rest =>
    if s = "" ∨ s = "." then resolveSegs acc rest
    else if s = ".." then resolveSegs acc.dropLast rest
    else resolveSegs (acc ++ [s]) rest

/-- `path.join(base, filename)` where `base` is an absolute directory given as
segments and `filename` is a raw string that may contain `/` and `..`. -/
def joinPath (base : List String) (filename : String) : List String :=
  resolveSegs base ((splitOnChar '/' filename.data).map (fun l => String.mk l))

/-- `p` lies under directory `dir` (is `dir` itself or a descendant). -/
def underDir (dir p : List String) : Bool :=
  p.take dir.length == dir

/-- `PDFProcessor.downloadFile`: joins the requested filename onto the managed
output directory and returns the resolved path whenever a file exists there
(`existsSync`), with no check that the resolved path stays inside the output
directory.  `fsFiles` is the set of files present on disk. -/
def downloadFile (fsFiles : List (List String)) (outputDir : List String)
    (filename : String) : Option (List String) :=
  let filePath := joinPath outputDir filename
  if fsFiles.contains filePath then some filePath else none

/-! ### Job data model (`ProcessingJob`) -/

/-- `ProcessingJob.steps`. -/
structure Steps where
  extract : Bool
  convert : Bool
  merge : Bool
deriving DecidableEq

/-- `ProcessingJob.type`. -/
inductive JobType where
  | convert
  | merge
  | fullProcess
deriving DecidableEq

/-- `ProcessingJob.status`. -/
inductive Status where
  | pending
  | processing
  | completed
  | failed
deriving DecidableEq

/-- `ProcessingJob`.  `createdAt` is the millisecond timestamp. -/
structure Job where
  id : String
  type : JobType
  status : Status
  progress : Nat
  inputFiles : List String
  outputFile : Option String
  error : Option String
  createdAt : Nat
  steps : Option Steps
deriving DecidableEq

/-- A `Partial<ProcessingJob>` as actually passed to `updateJob`: each field
that a call site may set, `none` meaning "field absent from the patch".  Fields
never patched by any call site (`id`, `type`, `inputFiles`, `createdAt`) do not
appear. -/
structure JobUpdate where
  status : Option Status := none
  progress : Option Nat := none
  outputFile : Option String := none
  error : Option String := none
  steps : Option Steps := none
deriving DecidableEq

/-- `Object.assign(job, updates)`: fields present in the patch overwrite, the
rest are preserved. -/
def applyUpdate (j : Job) (u : JobUpdate) : Job :=
  { j with
    status := u.status.getD j.status
    progress := u.progress.getD j.progress
    outputFile := match u.outputFile with | some f => some f | none => j.outputFile
    error := match u.error with | some e => some e | none => j.error
    steps := match u.steps with | some s => some s | none => j.steps }

/-- The registry: a `Map<string, ProcessingJob>` in insertion order. -/
abbrev Registry := List Job

/-- `Map.get` / `PDFProcessor.getJob`. -/
def getJob (jobs : Registry) (jobId : String) : Option Job :=
  jobs.find? (fun j => j.id == jobId)

/-- `Map.set`: overwrite in place when the key exists, append otherwise. -/
def setJob (jobs : Registry) (j : Job) : Registry :=
  if jobs.any (fun o => o.id == j.id) then
    jobs.map (fun o => if o.id == j.id then j else o)
  else
    jobs ++ [j]

/-- `PDFProcessor.updateJob`: look the job up, merge the patch into it, store
it back; a silent no-op when the id is absent. -/
def updateJob (jobs : Registry) (jobId : String) (u : JobUpdate) : Registry :=
  jobs.map (fun j => if j.id == jobId then applyUpdate j u else j)

/-- The record `createJob` inserts: id is `Date.now().toString() +
Math.random().toString(36).substr(2, 9)`, modelled as the decimal time string
`toString now` concatenated with the environment-supplied random suffix
`rand`. -/
def newJob (now : Nat) (rand : String) (type : JobType)
    (inputFiles : List String) : Job :=
  { id := toString now ++ rand
    type := type
    status := Status.pending
    progress := 0
    inputFiles := inputFiles
    outputFile := none
    error := none
    createdAt := now
    steps := if type == JobType.fullProcess then
        some { extract := false, convert := false, merge := false }
      else none }

/-- `PDFProcessor` instance state: the registry plus the two managed
directories. -/
structure PDFProcessor where
  jobs : Registry
  uploadDir : String
  outputDir : String

/-- `PDFProcessor.createJob`. -/
def createJob (p : PDFProcessor) (now : Nat) (rand : String) (type : JobType)
    (inputFiles : List String) : String × PDFProcessor :=
  let job := newJob now rand type inputFiles
  (job.id, { p with jobs := setJob p.jobs job })

/-- `PDFProcessor.getAllJobs`: `Array.from(map.values()).sort((a, b) =>
b.createdAt - a.createdAt)` — a stable sort whose comparator orders by
`createdAt` descending. -/
def getAllJobs (p : PDFProcessor) : List Job :=
  p.jobs.mergeSort (fun a b => decide (b.createdAt ≤ a.createdAt))

/-! ### Pipeline adapters and `processArchive` -/

/-- `path.extname(p)`: the extension of the final path component, `""` when
there is no dot after the first character of that component. -/
def extname (p : String) : String :=
  let base := (splitOnChar '/' p.data).getLastD []
  match splitOnChar '.' base with
  | [] => ""
  | [_] => ""
  | x :: xs =>
    if x.isEmpty && xs.length == 1 then ""
    else String.mk ('.' :: (x :: xs).getLastD [])

/-- A directory entry as seen by `fs.readdir(..., { withFileTypes: true })`. -/
inductive Entry where
  | file (name : String)
  | dirent (name : String) (entries : List Entry)

/-- The regex test `/\.(html|htm)$/i` on an entry name. -/
def htmlMatch (name : String) : Bool :=
  charListEndsWith (name.data.map Char.toLower) ".html".data ||
    charListEndsWith (name.data.map Char.toLower) ".htm".data

mutual

/-- One step of `scanDirectory`: a file contributes its full path when its
name matches the extension regex, a directory is recursed into. -/
def scanEntry (currentDir : String) : Entry → List String
  | Entry.file n => if htmlMatch n then [currentDir ++ "/" ++ n] else []
  | Entry.dirent n es => scanList (currentDir ++ "/" ++ n) es

/-- `scanDirectory` over the entries of one directory, in `readdir` order. -/
def scanList (currentDir : String) : List Entry → List String
  | [] => []
  | e :: es => scanEntry currentDir e ++ scanList currentDir es

end

/-- `PDFProcessor.findHtmlFiles`: collect matching files depth-first, then
`files.sort()` (JS default string sort = lexicographic). -/
def findHtmlFiles (dir : String) (entries : List Entry) : List String :=
  (scanList dir entries).mergeSort (fun a b => decide (a ≤ b))

/-- Observable outcome of one external Python-script invocation (`spawn` of
`python3`/`python`/... with captured stdout/stderr). -/
structure PyEnv where
  pythonFound : Bool
  spawnErr : Option String
  exitCode : Int
  outS : String
  errS : String

/-- `PDFProcessor.convertHtmlToPdf`: rejects when no Python executable could
be spawned, on a spawn error, or on a non-zero exit code (with
`stderr || stdout` in the message). -/
def convertHtmlToPdf (pe : PyEnv) : Except String Unit :=
  if pe.pythonFound = false then
    Except.error "Python executable not found. Please ensure Python 3.x is installed."
  else
    match pe.spawnErr with
    | some m => Except.error ("Failed to start Python script: " ++ m)
    | none =>
      if pe.exitCode == 0 then Except.ok ()
      else Except.error ("HTML to PDF conversion failed: " ++
        (if pe.errS == "" then pe.outS else pe.errS))

/-- `PDFProcessor.mergePdfs`: same structure as `convertHtmlToPdf` with the
merge script's message. -/
def mergePdfs (pe : PyEnv) : Except String Unit :=
  if pe.pythonFound = false then
    Except.error "Python executable not found. Please ensure Python 3.x is installed."
  else
    match pe.spawnErr with
    | some m => Except.error ("Failed to start Python script: " ++ m)
    | none =>
      if pe.exitCode == 0 then Except.ok ()
      else Except.error ("PDF merge failed: " ++
        (if pe.errS == "" then pe.outS else pe.errS))

/-- Observable outcomes of the external world for one `processArchive` run:
the zip extractor's result (its error message is the external library's),
availability/behaviour of `unrar`, the extracted directory tree, and the two
Python script invocations. -/
structure Env where
  zipResult : Except String Unit
  unrarAvailable : Bool
  unrarSpawnErr : Option String
  unrarExitCode : Int
  tree : List Entry
  convertPy : PyEnv
  mergePy : PyEnv

/-- `PDFProcessor.extractArchive`: dispatch on the lower-cased extension;
zip delegates to the external library, rar requires `unrar` to be installed
and to exit with code 0, anything else is rejected. -/
def extractArchive (env : Env) (archivePath : String) : Except String Unit :=
  if lowerStr (extname archivePath) == ".zip" then
    env.zipResult
  else if lowerStr (extname archivePath) == ".rar" then
    if env.unrarAvailable = false then
      Except.error "RAR extraction is not supported on this system. Please install unrar utility or use ZIP files instead. For Ubuntu/Debian: sudo apt-get install unrar"
    else
      match env.unrarSpawnErr with
      | some m => Except.error ("RAR extraction error: " ++ m ++ ". Please install unrar utility or use ZIP files instead.")
      | none =>
        if env.unrarExitCode == 0 then Except.ok ()
        else Except.error ("RAR extraction failed with code " ++ toString env.unrarExitCode)
  else
    Except.error "Unsupported archive format. Please use ZIP or RAR files."

/-- The message thrown when document discovery finds nothing. -/
def noHtmlMsg : String := "No HTML files found in the archive"

/-- The catch-block patch: only `status` and `error` are assigned. -/
def failPatch (e : String) : JobUpdate :=
  { status := some Status.failed, error := some e }

/-- Patch written on entry: `{ status: 'processing', progress: 10 }`. -/
def patchStart : JobUpdate :=
  { status := some Status.processing, progress := some 10 }

/-- Patch after extraction:
`{ progress: 30, steps: { extract: true, convert: false, merge: false } }`. -/
def patchExtracted : JobUpdate :=
  { progress := some 30
    steps := some { extract := true, convert := false, merge := false } }

/-- Patch after discovery: `{ progress: 40 }`. -/
def patchFound : JobUpdate := { progress := some 40 }

/-- Patch after conversion:
`{ progress: 70, steps: { extract: true, convert: true, merge: false } }`. -/
def patchConverted : JobUpdate :=
  { progress := some 70
    steps := some { extract := true, convert := true, merge := false } }

/-- Patch on success: status completed, progress 100, the public output file
name, and all three step flags. -/
def patchDone (jobId : String) : JobUpdate :=
  { status := some Status.completed
    progress := some 100
    outputFile := some ("merged_" ++ jobId ++ ".pdf")
    steps := some { extract := true, convert := true, merge := true } }

/-- `PDFProcessor.processArchive`, as the sequence of registry states written
by its `updateJob` calls (in order) together with the returned value — an
`Except.error` models the rethrown exception.  Stage order, progress values,
steps patches, the zero-documents check before the progress-40 update, the
output file name `merged_<id>.pdf`, and the catch block that records
`status: failed` with the thrown message before rethrowing are all taken
from the source; `cleanup` swallows its own errors and writes no job state,
so it contributes nothing observable. -/
def processTrace (env : Env) (p : PDFProcessor) (jobId archivePath : String) :
    List Registry × Except String Unit :=
  let s1 := updateJob p.jobs jobId patchStart
  match extractArchive env archivePath with
  | Except.error e => ([s1, updateJob s1 jobId (failPatch e)], Except.error e)
  | Except.ok _ =>
    let s2 := updateJob s1 jobId patchExtracted
    let htmlFiles := findHtmlFiles (p.uploadDir ++ "/extracted_" ++ jobId) env.tree
    if htmlFiles.length == 0 then
      ([s1, s2, updateJob s2 jobId (failPatch noHtmlMsg)], Except.error noHtmlMsg)
    else
      let s3 := updateJob s2 jobId patchFound
      match convertHtmlToPdf env.convertPy with
      | Except.error e => ([s1, s2, s3, updateJob s3 jobId (failPatch e)], Except.error e)
      | Except.ok _ =>
        let s4 := updateJob s3 jobId patchConverted
        match mergePdfs env.mergePy with
        | Except.error e =>
          ([s1, s2, s3, s4, updateJob s4 jobId (failPatch e)], Except.error e)
        | Except.ok _ =>
          let s5 := updateJob s4 jobId (patchDone jobId)
          ([s1, s2, s3, s4, s5], Except.ok ())

/-- The job record with the given id at every observable point of a run: in
the initial registry and after each `updateJob` call of `processArchive`. -/
def jobStates (env : Env) (p : PDFProcessor) (jobId archivePath : String) :
    List (Option Job) :=
  (p.jobs :: (processTrace env p jobId archivePath).1).map
    (fun s => getJob s jobId)

/-! ### Registry lemmas -/

theorem applyUpdate_id (j : Job) (u : JobUpdate) : (applyUpdate j u).id = j.id := rfl

theorem applyUpdate_type (j : Job) (u : JobUpdate) : (applyUpdate j u).type = j.type := rfl

theorem applyUpdate_inputFiles (j : Job) (u : JobUpdate) :
    (applyUpdate j u).inputFiles = j.inputFiles := rfl

theorem applyUpdate_createdAt (j : Job) (u : JobUpdate) :
    (applyUpdate j u).createdAt = j.createdAt := rfl

/-- Looking a job up after an update patches exactly that job. -/
theorem getJob_updateJob (jobs : Registry) (i : String) (u : JobUpdate) :
    getJob (updateJob jobs i u) i = (getJob jobs i).map (fun j => applyUpdate j u) := by
  induction jobs with
  | nil => rfl
  | cons j js ih =>
    cases hb : j.id == i with
    | true =>
      have h' : j.id = i := by simpa using hb
      subst h'
      simp [getJob, updateJob, List.find?_cons, applyUpdate]
    | false =>
      simp only [getJob, updateJob] at ih
      simp only [getJob, updateJob, List.map_cons, List.find?_cons, hb, if_false,
        Bool.false_eq_true]
      simpa [hb] using ih

/-! ### Error-message lemmas -/

theorem append_left_ne_empty {a : String} (b : String) (h : a ≠ "") :
    a ++ b ≠ "" := by
  intro hc
  apply h
  rw [String.ext_iff] at hc ⊢
  simp only [String.data_append] at hc
  exact (List.append_eq_nil.mp hc).1

/-- The external zip library reported a non-empty message (the one aspect of
stage-error text that is not constructed by this code). -/
def zipMsgOk (env : Env) : Bool :=
  match env.zipResult with
  | Except.error m => !(m == "")
  | Except.ok _ => true

theorem extract_error_ne_empty (env : Env) (ap : String) (hz : zipMsgOk env = true)
    (e : String) (h : extractArchive env ap = Except.error e) : e ≠ "" := by
  unfold extractArchive at h
  split at h
  · cases hr : env.zipResult with
    | error m =>
      rw [hr] at h
      cases h
      simpa [zipMsgOk, hr] using hz
    | ok u => rw [hr] at h; cases h
  · split at h
    · split at h
      · cases h; decide
      · split at h
        · cases h
          exact append_left_ne_empty _ (append_left_ne_empty _ (by decide))
        · split at h
          · cases h
          · cases h
            exact append_left_ne_empty _ (by decide)
    · cases h; decide

theorem convert_error_ne_empty (pe : PyEnv) (e : String)
    (h : convertHtmlToPdf pe = Except.error e) : e ≠ "" := by
  unfold convertHtmlToPdf at h
  split at h
  · cases h; decide
  · split at h
    · cases h
      exact append_left_ne_empty _ (by decide)
    · split at h
      · cases h
      · cases h
        exact append_left_ne_empty _ (by decide)

theorem merge_error_ne_empty (pe : PyEnv) (e : String)
    (h : mergePdfs pe = Except.error e) : e ≠ "" := by
  unfold mergePdfs at h
  split at h
  · cases h; decide
  · split at h
    · cases h
      exact append_left_ne_empty _ (by decide)
    · split at h
      · cases h
      · cases h
        exact append_left_ne_empty _ (by decide)

theorem noHtmlMsg_ne_empty : noHtmlMsg ≠ "" := by decide

/-! ### Run characterization -/

/-- `path.join(this.uploadDir, 'extracted_' + jobId)`. -/
def extractDirOf (p : PDFProcessor) (jobId : String) : String :=
  p.uploadDir ++ "/extracted_" ++ jobId

/-- The job after the entry update. -/
def runJob1 (j : Job) : Job := applyUpdate j patchStart

/-- The job after the extract-stage update. -/
def runJob2 (j : Job) : Job := applyUpdate (runJob1 j) patchExtracted

/-- The job after the discovery update. -/
def runJob3 (j : Job) : Job := applyUpdate (runJob2 j) patchFound

/-- The job after the convert-stage update. -/
def runJob4 (j : Job) : Job := applyUpdate (runJob3 j) patchConverted

/-- The job after the completion update. -/
def runJob5 (j : Job) (jobId : String) : Job :=
  applyUpdate (runJob4 j) (patchDone jobId)

/-- A `processArchive` run on a registered job takes exactly one of five
shapes: failure at the extract, discovery, convert, or merge stage, or
success; in each case the observable job history and the returned value are
as listed. -/
theorem jobStates_cases (env : Env) (p : PDFProcessor) (jobId ap : String)
    (j0 : Job) (hj : getJob p.jobs jobId = some j0) :
    (∃ e, extractArchive env ap = Except.error e ∧
      (processTrace env p jobId ap).2 = Except.error e ∧
      jobStates env p jobId ap =
        [some j0, some (runJob1 j0),
          some (applyUpdate (runJob1 j0) (failPatch e))]) ∨
    (extractArchive env ap = Except.ok () ∧
      findHtmlFiles (extractDirOf p jobId) env.tree = [] ∧
      (processTrace env p jobId ap).2 = Except.error noHtmlMsg ∧
      jobStates env p jobId ap =
        [some j0, some (runJob1 j0), some (runJob2 j0),
          some (applyUpdate (runJob2 j0) (failPatch noHtmlMsg))]) ∨
    (∃ e, extractArchive env ap = Except.ok () ∧
      findHtmlFiles (extractDirOf p jobId) env.tree ≠ [] ∧
      convertHtmlToPdf env.convertPy = Except.error e ∧
      (processTrace env p jobId ap).2 = Except.error e ∧
      jobStates env p jobId ap =
        [some j0, some (runJob1 j0), some (runJob2 j0), some (runJob3 j0),
          some (applyUpdate (runJob3 j0) (failPatch e))]) ∨
    (∃ e, extractArchive env ap = Except.ok () ∧
      findHtmlFiles (extractDirOf p jobId) env.tree ≠ [] ∧
      convertHtmlToPdf env.convertPy = Except.ok () ∧
      mergePdfs env.mergePy = Except.error e ∧
      (processTrace env p jobId ap).2 = Except.error e ∧
      jobStates env p jobId ap =
        [some j0, some (runJob1 j0), some (runJob2 j0), some (runJob3 j0),
          some (runJob4 j0), some (applyUpdate (runJob4 j0) (failPatch e))]) ∨
    (extractArchive env ap = Except.ok () ∧
      findHtmlFiles (extractDirOf p jobId) env.tree ≠ [] ∧
      convertHtmlToPdf env.convertPy = Except.ok () ∧
      mergePdfs env.mergePy = Except.ok () ∧
      (processTrace env p jobId ap).2 = Except.ok () ∧
      jobStates env p jobId ap =
        [some j0, some (runJob1 j0), some (runJob2 j0), some (runJob3 j0),
          some (runJob4 j0), some (runJob5 j0 jobId)]) := by
  rcases hE : extractArchive env ap with e | u
  · refine Or.inl ⟨e, rfl, ?_, ?_⟩ <;>
      simp [jobStates, processTrace, hE, getJob_updateJob, hj, runJob1]
  · cases u
    by_cases hf : findHtmlFiles (p.uploadDir ++ "/extracted_" ++ jobId) env.tree = []
    · refine Or.inr (Or.inl ⟨rfl, hf, ?_, ?_⟩) <;>
        simp [jobStates, processTrace, hE, getJob_updateJob, hj, runJob1, runJob2, hf]
    · rcases hC : convertHtmlToPdf env.convertPy with e | u
      · refine Or.inr (Or.inr (Or.inl ⟨e, rfl, hf, rfl, ?_, ?_⟩)) <;>
          simp [jobStates, processTrace, hE, hC, getJob_updateJob, hj, runJob1, runJob2,
            runJob3, hf]
      · cases u
        rcases hM : mergePdfs env.mergePy with e | u
        · refine Or.inr (Or.inr (Or.inr (Or.inl ⟨e, rfl, hf, rfl, rfl, ?_, ?_⟩))) <;>
            simp [jobStates, processTrace, hE, hC, hM, getJob_updateJob, hj, runJob1,
              runJob2, runJob3, runJob4, hf]
        · cases u
          refine Or.inr (Or.inr (Or.inr (Or.inr ⟨rfl, hf, rfl, rfl, ?_, ?_⟩))) <;>
            simp [jobStates, processTrace, hE, hC, hM, getJob_updateJob, hj, runJob1,
              runJob2, runJob3, runJob4, runJob5, hf]

/-- The job record with the given id in the last registry state of the run. -/
def finalJob (env : Env) (p : PDFProcessor) (jobId ap : String) : Option Job :=
  (jobStates env p jobId ap).getLastD none

/-! ### Sample inputs used by the witnesses -/

/-- A freshly created full-process job (time component 5, random suffix
`abc123def`, so id `5abc123def`). -/
def sampleJob : Job := newJob 5 "abc123def" JobType.fullProcess ["docs.zip"]

/-- A processor whose registry holds exactly `sampleJob`. -/
def sampleP : PDFProcessor :=
  { jobs := [sampleJob], uploadDir := "/app/uploads", outputDir := "/app/outputs" }

/-- A Python invocation that succeeds. -/
def okPy : PyEnv :=
  { pythonFound := true, spawnErr := none, exitCode := 0, outS := "", errS := "" }

/-- An extracted tree with two documents, one nested. -/
def sampleTree : List Entry :=
  [Entry.file "index.html", Entry.dirent "sub" [Entry.file "page.htm"]]

/-- An environment in which every stage succeeds. -/
def sampleEnv : Env :=
  { zipResult := Except.ok (), unrarAvailable := true, unrarSpawnErr := none,
    unrarExitCode := 0, tree := sampleTree, convertPy := okPy, mergePy := okPy }

/-- An environment in which extraction succeeds but the tree has no documents. -/
def emptyEnv : Env :=
  { zipResult := Except.ok (), unrarAvailable := true, unrarSpawnErr := none,
    unrarExitCode := 0, tree := [Entry.dirent "sub" [Entry.file "notes.txt"]],
    convertPy := okPy, mergePy := okPy }

/-! ### C2 -/

/-- C2: for every job id present in the registry and every archive path, every
execution path of `processArchive` leaves the job's final status `completed`
or `failed`; when a stage fails, the job is marked failed with the thrown
message (non-empty, given that the external zip library reports non-empty
messages) recorded in `error` before the exception is propagated to the
caller, and when the run returns normally the job is completed. -/
theorem C2_processArchive_terminal (env : Env) (p : PDFProcessor)
    (jobId ap : String) (j0 : Job) (hj : getJob p.jobs jobId = some j0)
    (hz : zipMsgOk env = true) :
    (∀ j, finalJob env p jobId ap = some j →
      j.status = Status.completed ∨ j.status = Status.failed) ∧
    (∀ e, (processTrace env p jobId ap).2 = Except.error e →
      e ≠ "" ∧ ∀ j, finalJob env p jobId ap = some j →
        j.status = Status.failed ∧ j.error = some e) ∧
    ((processTrace env p jobId ap).2 = Except.ok () →
      ∀ j, finalJob env p jobId ap = some j → j.status = Status.completed) := by
  rcases jobStates_cases env p jobId ap j0 hj with
    ⟨e, hE, hres, hstates⟩ | ⟨hE, hf, hres, hstates⟩ | ⟨e, hE, hf, hC, hres, hstates⟩ |
    ⟨e, hE, hf, hC, hM, hres, hstates⟩ | ⟨hE, hf, hC, hM, hres, hstates⟩
  · refine ⟨?_, ?_, ?_⟩
    · intro j hjf
      simp only [finalJob, hstates, List.getLastD] at hjf
      cases hjf
      exact Or.inr rfl
    · intro e' he'
      rw [hres] at he'
      injection he' with h
      subst h
      refine ⟨extract_error_ne_empty env ap hz e hE, ?_⟩
      intro j hjf
      simp only [finalJob, hstates, List.getLastD] at hjf
      cases hjf
      exact ⟨rfl, rfl⟩
    · intro hok
      rw [hres] at hok
      cases hok
  · refine ⟨?_, ?_, ?_⟩
    · intro j hjf
      simp only [finalJob, hstates, List.getLastD] at hjf
      cases hjf
      exact Or.inr rfl
    · intro e' he'
      rw [hres] at he'
      injection he' with h
      subst h
      refine ⟨noHtmlMsg_ne_empty, ?_⟩
      intro j hjf
      simp only [finalJob, hstates, List.getLastD] at hjf
      cases hjf
      exact ⟨rfl, rfl⟩
    · intro hok
      rw [hres] at hok
      cases hok
  · refine ⟨?_, ?_, ?_⟩
    · intro j hjf
      simp only [finalJob, hstates, List.getLastD] at hjf
      cases hjf
      exact Or.inr rfl
    · intro e' he'
      rw [hres] at he'
      injection he' with h
      subst h
      refine ⟨convert_error_ne_empty env.convertPy e hC, ?_⟩
      intro j hjf
      simp only [finalJob, hstates, List.getLastD] at hjf
      cases hjf
      exact ⟨rfl, rfl⟩
    · intro hok
      rw [hres] at hok
      cases hok
  · refine ⟨?_, ?_, ?_⟩
    · intro j hjf
      simp only [finalJob, hstates, List.getLastD] at hjf
      cases hjf
      exact Or.inr rfl
    · intro e' he'
      rw [hres] at he'
      injection he' with h
      subst h
      refine ⟨merge_error_ne_empty env.mergePy e hM, ?_⟩
      intro j hjf
      simp only [finalJob, hstates, List.getLastD] at hjf
      cases hjf
      exact ⟨rfl, rfl⟩
    · intro hok
      rw [hres] at hok
      cases hok
  · refine ⟨?_, ?_, ?_⟩
    · intro j hjf
      simp only [finalJob, hstates, List.getLastD] at hjf
      cases hjf
      exact Or.inl rfl
    · intro e' he'
      rw [hres] at he'
      cases he'
    · intro _ j hjf
      simp only [finalJob, hstates, List.getLastD] at hjf
      cases hjf
      exact rfl

/-- Witness for C2 at a concrete registry, job and environment. -/
theorem C2_processArchive_terminal_witness :
    (getJob sampleP.jobs "5abc123def" = some sampleJob ∧
      zipMsgOk sampleEnv = true) ∧
    ((∀ j, finalJob sampleEnv sampleP "5abc123def" "docs.zip" = some j →
      j.status = Status.completed ∨ j.status = Status.failed) ∧
    (∀ e, (processTrace sampleEnv sampleP "5abc123def" "docs.zip").2 = Except.error e →
      e ≠ "" ∧ ∀ j, finalJob sampleEnv sampleP "5abc123def" "docs.zip" = some j →
        j.status = Status.failed ∧ j.error = some e) ∧
    ((processTrace sampleEnv sampleP "5abc123def" "docs.zip").2 = Except.ok () →
      ∀ j, finalJob sampleEnv sampleP "5abc123def" "docs.zip" = some j →
        j.status = Status.completed)) :=
  ⟨⟨by decide, by decide⟩,
    C2_processArchive_terminal sampleEnv sampleP "5abc123def" "docs.zip" sampleJob
      (by decide) (by decide)⟩

/-! ### Field values along the run -/

@[simp] theorem newJob_status (now : Nat) (rand : String) (t : JobType)
    (fs : List String) : (newJob now rand t fs).status = Status.pending := rfl

@[simp] theorem newJob_progress (now : Nat) (rand : String) (t : JobType)
    (fs : List String) : (newJob now rand t fs).progress = 0 := rfl

@[simp] theorem newJob_outputFile (now : Nat) (rand : String) (t : JobType)
    (fs : List String) : (newJob now rand t fs).outputFile = none := rfl

@[simp] theorem newJob_error (now : Nat) (rand : String) (t : JobType)
    (fs : List String) : (newJob now rand t fs).error = none := rfl

@[simp] theorem newJob_type (now : Nat) (rand : String) (t : JobType)
    (fs : List String) : (newJob now rand t fs).type = t := rfl

@[simp] theorem newJob_steps_full (now : Nat) (rand : String) (fs : List String) :
    (newJob now rand JobType.fullProcess fs).steps =
      some { extract := false, convert := false, merge := false } := rfl

@[simp] theorem runJob1_status (j : Job) : (runJob1 j).status = Status.processing := rfl

@[simp] theorem runJob2_status (j : Job) : (runJob2 j).status = Status.processing := rfl

@[simp] theorem runJob3_status (j : Job) : (runJob3 j).status = Status.processing := rfl

@[simp] theorem runJob4_status (j : Job) : (runJob4 j).status = Status.processing := rfl

@[simp] theorem runJob5_status (j : Job) (i : String) :
    (runJob5 j i).status = Status.completed := rfl

@[simp] theorem fail_status (j : Job) (e : String) :
    (applyUpdate j (failPatch e)).status = Status.failed := rfl

@[simp] theorem fail_error (j : Job) (e : String) :
    (applyUpdate j (failPatch e)).error = some e := rfl

@[simp] theorem fail_progress (j : Job) (e : String) :
    (applyUpdate j (failPatch e)).progress = j.progress := rfl

@[simp] theorem fail_outputFile (j : Job) (e : String) :
    (applyUpdate j (failPatch e)).outputFile = j.outputFile := rfl

@[simp] theorem fail_steps (j : Job) (e : String) :
    (applyUpdate j (failPatch e)).steps = j.steps := rfl

@[simp] theorem runJob1_progress (j : Job) : (runJob1 j).progress = 10 := rfl

@[simp] theorem runJob2_progress (j : Job) : (runJob2 j).progress = 30 := rfl

@[simp] theorem runJob3_progress (j : Job) : (runJob3 j).progress = 40 := rfl

@[simp] theorem runJob4_progress (j : Job) : (runJob4 j).progress = 70 := rfl

@[simp] theorem runJob5_progress (j : Job) (i : String) :
    (runJob5 j i).progress = 100 := rfl

@[simp] theorem runJob1_steps (j : Job) : (runJob1 j).steps = j.steps := rfl

@[simp] theorem runJob2_steps (j : Job) :
    (runJob2 j).steps = some { extract := true, convert := false, merge := false } := rfl

@[simp] theorem runJob3_steps (j : Job) :
    (runJob3 j).steps = some { extract := true, convert := false, merge := false } := rfl

@[simp] theorem runJob4_steps (j : Job) :
    (runJob4 j).steps = some { extract := true, convert := true, merge := false } := rfl

@[simp] theorem runJob5_steps (j : Job) (i : String) :
    (runJob5 j i).steps = some { extract := true, convert := true, merge := true } := rfl

@[simp] theorem runJob1_outputFile (j : Job) : (runJob1 j).outputFile = j.outputFile := rfl

@[simp] theorem runJob2_outputFile (j : Job) : (runJob2 j).outputFile = j.outputFile := rfl

@[simp] theorem runJob3_outputFile (j : Job) : (runJob3 j).outputFile = j.outputFile := rfl

@[simp] theorem runJob4_outputFile (j : Job) : (runJob4 j).outputFile = j.outputFile := rfl

@[simp] theorem runJob5_outputFile (j : Job) (i : String) :
    (runJob5 j i).outputFile = some ("merged_" ++ i ++ ".pdf") := rfl

@[simp] theorem runJob1_error (j : Job) : (runJob1 j).error = j.error := rfl

@[simp] theorem runJob2_error (j : Job) : (runJob2 j).error = j.error := rfl

@[simp] theorem runJob3_error (j : Job) : (runJob3 j).error = j.error := rfl

@[simp] theorem runJob4_error (j : Job) : (runJob4 j).error = j.error := rfl

@[simp] theorem runJob5_error (j : Job) (i : String) : (runJob5 j i).error = j.error := rfl

@[simp] theorem runJob1_type (j : Job) : (runJob1 j).type = j.type := rfl

@[simp] theorem runJob2_type (j : Job) : (runJob2 j).type = j.type := rfl

@[simp] theorem runJob3_type (j : Job) : (runJob3 j).type = j.type := rfl

@[simp] theorem runJob4_type (j : Job) : (runJob4 j).type = j.type := rfl

@[simp] theorem runJob5_type (j : Job) (i : String) : (runJob5 j i).type = j.type := rfl

@[simp] theorem fail_type (j : Job) (e : String) :
    (applyUpdate j (failPatch e)).type = j.type := rfl

/-! ### C3 -/

/-- C3: for a registered, freshly created full-process job, at every
observable point of a `processArchive` run, `status = completed` implies the
output file is set and non-empty, progress is 100, no error is recorded, and
all three step flags are true. -/
theorem C3_completed_fields (env : Env) (p : PDFProcessor) (jobId ap : String)
    (now : Nat) (rand : String) (files : List String)
    (hj : getJob p.jobs jobId = some (newJob now rand JobType.fullProcess files)) :
    ∀ j, some j ∈ jobStates env p jobId ap → j.status = Status.completed →
      j.outputFile.getD "" ≠ "" ∧ j.progress = 100 ∧ j.error = none ∧
      j.steps = some { extract := true, convert := true, merge := true } := by
  intro j hm hcomp
  rcases jobStates_cases env p jobId ap _ hj with
    ⟨e, hE, hres, hstates⟩ | ⟨hE, hf, hres, hstates⟩ | ⟨e, hE, hf, hC, hres, hstates⟩ |
    ⟨e, hE, hf, hC, hM, hres, hstates⟩ | ⟨hE, hf, hC, hM, hres, hstates⟩ <;>
    rw [hstates] at hm <;>
    simp only [List.mem_cons, List.not_mem_nil, or_false, Option.some.injEq] at hm
  · rcases hm with rfl | rfl | rfl <;> simp_all
  · rcases hm with rfl | rfl | rfl | rfl <;> simp_all
  · rcases hm with rfl | rfl | rfl | rfl | rfl <;> simp_all
  · rcases hm with rfl | rfl | rfl | rfl | rfl | rfl <;> simp_all
  · rcases hm with rfl | rfl | rfl | rfl | rfl | rfl
    · simp_all
    · simp_all
    · simp_all
    · simp_all
    · simp_all
    · refine ⟨?_, by simp, by simp, by simp⟩
      simp only [runJob5_outputFile, Option.getD_some]
      exact append_left_ne_empty _ (append_left_ne_empty _ (by decide))

/-- Witness for C3 at a concrete registry, job and environment. -/
theorem C3_completed_fields_witness :
    (getJob sampleP.jobs "5abc123def" =
      some (newJob 5 "abc123def" JobType.fullProcess ["docs.zip"])) ∧
    (∀ j, some j ∈ jobStates sampleEnv sampleP "5abc123def" "docs.zip" →
      j.status = Status.completed →
      j.outputFile.getD "" ≠ "" ∧ j.progress = 100 ∧ j.error = none ∧
      j.steps = some { extract := true, convert := true, merge := true }) :=
  ⟨by decide, C3_completed_fields sampleEnv sampleP "5abc123def" "docs.zip"
    5 "abc123def" ["docs.zip"] (by decide)⟩

/-! ### C4 -/

/-- The allowed status transitions: stay put, `pending → processing`, or
`processing → completed/failed`; `completed` and `failed` relate only to
themselves. -/
def statusStep (a b : Status) : Prop :=
  a = b ∨ (a = Status.pending ∧ b = Status.processing) ∨
    (a = Status.processing ∧ (b = Status.completed ∨ b = Status.failed))

/-- The status history of the job over a run. -/
def statusesOf (env : Env) (p : PDFProcessor) (jobId ap : String) : List Status :=
  (jobStates env p jobId ap).filterMap (fun o => o.map Job.status)

/-- C4: for a registered, freshly created full-process job, the status history
of a `processArchive` run starts at `pending` and every adjacent pair follows
`pending → processing → completed/failed`; in particular once the status is
`completed` or `failed` no later update of the run changes it. -/
theorem C4_status_transitions (env : Env) (p : PDFProcessor) (jobId ap : String)
    (now : Nat) (rand : String) (files : List String)
    (hj : getJob p.jobs jobId = some (newJob now rand JobType.fullProcess files)) :
    (statusesOf env p jobId ap).head? = some Status.pending ∧
    List.Chain' statusStep (statusesOf env p jobId ap) := by
  rcases jobStates_cases env p jobId ap _ hj with
    ⟨e, hE, hres, hstates⟩ | ⟨hE, hf, hres, hstates⟩ | ⟨e, hE, hf, hC, hres, hstates⟩ |
    ⟨e, hE, hf, hC, hM, hres, hstates⟩ | ⟨hE, hf, hC, hM, hres, hstates⟩ <;>
    refine ⟨?_, ?_⟩ <;>
    simp [statusesOf, hstates, statusStep, List.chain'_cons]

/-- Witness for C4 at a concrete registry, job and environment. -/
theorem C4_status_transitions_witness :
    (getJob sampleP.jobs "5abc123def" =
      some (newJob 5 "abc123def" JobType.fullProcess ["docs.zip"])) ∧
    ((statusesOf sampleEnv sampleP "5abc123def" "docs.zip").head? =
      some Status.pending ∧
    List.Chain' statusStep (statusesOf sampleEnv sampleP "5abc123def" "docs.zip")) :=
  ⟨by decide, C4_status_transitions sampleEnv sampleP "5abc123def" "docs.zip"
    5 "abc123def" ["docs.zip"] (by decide)⟩

/-! ### C5 -/

/-- The progress history of the job over a run. -/
def progressesOf (env : Env) (p : PDFProcessor) (jobId ap : String) : List Nat :=
  (jobStates env p jobId ap).filterMap (fun o => o.map Job.progress)

/-- C5: for a registered, freshly created full-process job, the progress
history of a `processArchive` run is monotonically non-decreasing, stays
within 0–100 (it is a natural number, so the lower bound is inherent), and is
a prefix of the success history 0, 10, 30, 40, 70, 100 with the last reached
value repeated by the failure update when a stage fails (the failure patch
does not assign `progress`). -/
theorem C5_progress_monotone (env : Env) (p : PDFProcessor) (jobId ap : String)
    (now : Nat) (rand : String) (files : List String)
    (hj : getJob p.jobs jobId = some (newJob now rand JobType.fullProcess files)) :
    List.Chain' (fun a b => a ≤ b) (progressesOf env p jobId ap) ∧
    (∀ q ∈ progressesOf env p jobId ap, q ≤ 100) ∧
    progressesOf env p jobId ap ∈
      [[0, 10, 10], [0, 10, 30, 30], [0, 10, 30, 40, 40], [0, 10, 30, 40, 70, 70],
        [0, 10, 30, 40, 70, 100]] := by
  rcases jobStates_cases env p jobId ap _ hj with
    ⟨e, hE, hres, hstates⟩ | ⟨hE, hf, hres, hstates⟩ | ⟨e, hE, hf, hC, hres, hstates⟩ |
    ⟨e, hE, hf, hC, hM, hres, hstates⟩ | ⟨hE, hf, hC, hM, hres, hstates⟩ <;>
    refine ⟨?_, ?_, ?_⟩ <;>
    simp [progressesOf, hstates, List.chain'_cons]

/-- Witness for C5 at a concrete registry, job and environment. -/
theorem C5_progress_monotone_witness :
    (getJob sampleP.jobs "5abc123def" =
      some (newJob 5 "abc123def" JobType.fullProcess ["docs.zip"])) ∧
    (List.Chain' (fun a b => a ≤ b)
      (progressesOf sampleEnv sampleP "5abc123def" "docs.zip") ∧
    (∀ q ∈ progressesOf sampleEnv sampleP "5abc123def" "docs.zip", q ≤ 100) ∧
    progressesOf sampleEnv sampleP "5abc123def" "docs.zip" ∈
      [[0, 10, 10], [0, 10, 30, 30], [0, 10, 30, 40, 40], [0, 10, 30, 40, 70, 70],
        [0, 10, 30, 40, 70, 100]]) :=
  ⟨by decide, C5_progress_monotone sampleEnv sampleP "5abc123def" "docs.zip"
    5 "abc123def" ["docs.zip"] (by decide)⟩

/-! ### C6 -/

/-- One step of the `steps` sub-record history: presence never changes within
a run, and each of the three flags may only go from `false` to `true`. -/
def stepLe : Option Steps → Option Steps → Prop
  | some s1, some s2 =>
    (s1.extract = true → s2.extract = true) ∧
    (s1.convert = true → s2.convert = true) ∧
    (s1.merge = true → s2.merge = true)
  | none, none => True
  | _, _ => False

/-- The `steps` history of the job over a run. -/
def stepsOf (env : Env) (p : PDFProcessor) (jobId ap : String) :
    List (Option Steps) :=
  (jobStates env p jobId ap).filterMap (fun o => o.map Job.steps)

/-- C6: a created job carries the `steps` sub-record exactly when its kind is
`full-process`; for a registered, freshly created full-process job, at every
observable point of a run the sub-record stays present with
`merge ⇒ convert ⇒ extract`, and across updates each flag only flips from
false to true (given the pointwise ordering, in the order extract, convert,
merge) and never reverts. -/
theorem C6_steps_ordered (env : Env) (p : PDFProcessor) (jobId ap : String)
    (now : Nat) (rand : String) (files : List String)
    (hj : getJob p.jobs jobId = some (newJob now rand JobType.fullProcess files)) :
    (∀ (t : JobType) (n : Nat) (r : String) (fs : List String),
      (newJob n r t fs).steps.isSome = true ↔ t = JobType.fullProcess) ∧
    (∀ j, some j ∈ jobStates env p jobId ap →
      (j.steps.isSome = true ↔ j.type = JobType.fullProcess)) ∧
    (∀ j, some j ∈ jobStates env p jobId ap → ∀ s, j.steps = some s →
      (s.merge = true → s.convert = true) ∧ (s.convert = true → s.extract = true)) ∧
    List.Chain' stepLe (stepsOf env p jobId ap) := by
  refine ⟨?_, ?_, ?_, ?_⟩
  · intro t n r fs
    cases t <;> simp [newJob]
  · intro j hm
    rcases jobStates_cases env p jobId ap _ hj with
      ⟨e, hE, hres, hstates⟩ | ⟨hE, hf, hres, hstates⟩ | ⟨e, hE, hf, hC, hres, hstates⟩ |
      ⟨e, hE, hf, hC, hM, hres, hstates⟩ | ⟨hE, hf, hC, hM, hres, hstates⟩ <;>
      rw [hstates] at hm <;>
      simp only [List.mem_cons, List.not_mem_nil, or_false, Option.some.injEq] at hm
    · rcases hm with rfl | rfl | rfl <;> simp
    · rcases hm with rfl | rfl | rfl | rfl <;> simp
    · rcases hm with rfl | rfl | rfl | rfl | rfl <;> simp
    · rcases hm with rfl | rfl | rfl | rfl | rfl | rfl <;> simp
    · rcases hm with rfl | rfl | rfl | rfl | rfl | rfl <;> simp
  · intro j hm s hs
    rcases jobStates_cases env p jobId ap _ hj with
      ⟨e, hE, hres, hstates⟩ | ⟨hE, hf, hres, hstates⟩ | ⟨e, hE, hf, hC, hres, hstates⟩ |
      ⟨e, hE, hf, hC, hM, hres, hstates⟩ | ⟨hE, hf, hC, hM, hres, hstates⟩ <;>
      rw [hstates] at hm <;>
      simp only [List.mem_cons, List.not_mem_nil, or_false, Option.some.injEq] at hm
    · rcases hm with rfl | rfl | rfl <;> simp_all <;> subst hs <;> simp
    · rcases hm with rfl | rfl | rfl | rfl <;> simp_all <;> subst hs <;> simp
    · rcases hm with rfl | rfl | rfl | rfl | rfl <;> simp_all <;> subst hs <;> simp
    · rcases hm with rfl | rfl | rfl | rfl | rfl | rfl <;> simp_all <;> subst hs <;> simp
    · rcases hm with rfl | rfl | rfl | rfl | rfl | rfl <;> simp_all <;> subst hs <;> simp
  · rcases jobStates_cases env p jobId ap _ hj with
      ⟨e, hE, hres, hstates⟩ | ⟨hE, hf, hres, hstates⟩ | ⟨e, hE, hf, hC, hres, hstates⟩ |
      ⟨e, hE, hf, hC, hM, hres, hstates⟩ | ⟨hE, hf, hC, hM, hres, hstates⟩ <;>
      simp [stepsOf, hstates, List.chain'_cons, stepLe]

/-- Witness for C6 at a concrete registry, job and environment. -/
theorem C6_steps_ordered_witness :
    (getJob sampleP.jobs "5abc123def" =
      some (newJob 5 "abc123def" JobType.fullProcess ["docs.zip"])) ∧
    ((∀ (t : JobType) (n : Nat) (r : String) (fs : List String),
      (newJob n r t fs).steps.isSome = true ↔ t = JobType.fullProcess) ∧
    (∀ j, some j ∈ jobStates sampleEnv sampleP "5abc123def" "docs.zip" →
      (j.steps.isSome = true ↔ j.type = JobType.fullProcess)) ∧
    (∀ j, some j ∈ jobStates sampleEnv sampleP "5abc123def" "docs.zip" →
      ∀ s, j.steps = some s →
      (s.merge = true → s.convert = true) ∧ (s.convert = true → s.extract = true)) ∧
    List.Chain' stepLe (stepsOf sampleEnv sampleP "5abc123def" "docs.zip")) :=
  ⟨by decide, C6_steps_ordered sampleEnv sampleP "5abc123def" "docs.zip"
    5 "abc123def" ["docs.zip"] (by decide)⟩

/-! ### C10 -/

/-- C10: for a registered, freshly created full-process job, when a
`processArchive` run fails the final registry write changes only `status` and
`error` relative to the state after the last successful stage update:
the final record is the penultimate record with `status := failed` and
`error := the thrown message`, every other field (progress, outputFile,
steps, inputFiles, kind, createdAt) carried over unchanged; in particular the
penultimate record has no `outputFile`, so a failed job never has one. -/
theorem C10_failure_frame (env : Env) (p : PDFProcessor) (jobId ap : String)
    (now : Nat) (rand : String) (files : List String)
    (hj : getJob p.jobs jobId = some (newJob now rand JobType.fullProcess files)) :
    ∀ e, (processTrace env p jobId ap).2 = Except.error e →
      ∃ jpre, (jobStates env p jobId ap).dropLast.getLastD none = some jpre ∧
        finalJob env p jobId ap =
          some { jpre with status := Status.failed, error := some e } ∧
        jpre.outputFile = none := by
  intro e' he'
  rcases jobStates_cases env p jobId ap _ hj with
    ⟨e, hE, hres, hstates⟩ | ⟨hE, hf, hres, hstates⟩ | ⟨e, hE, hf, hC, hres, hstates⟩ |
    ⟨e, hE, hf, hC, hM, hres, hstates⟩ | ⟨hE, hf, hC, hM, hres, hstates⟩
  · rw [hres] at he'
    injection he' with h
    subst h
    refine ⟨runJob1 (newJob now rand JobType.fullProcess files), ?_, ?_, rfl⟩
    · rw [hstates]; rfl
    · simp only [finalJob, hstates]; rfl
  · rw [hres] at he'
    injection he' with h
    subst h
    refine ⟨runJob2 (newJob now rand JobType.fullProcess files), ?_, ?_, rfl⟩
    · rw [hstates]; rfl
    · simp only [finalJob, hstates]; rfl
  · rw [hres] at he'
    injection he' with h
    subst h
    refine ⟨runJob3 (newJob now rand JobType.fullProcess files), ?_, ?_, rfl⟩
    · rw [hstates]; rfl
    · simp only [finalJob, hstates]; rfl
  · rw [hres] at he'
    injection he' with h
    subst h
    refine ⟨runJob4 (newJob now rand JobType.fullProcess files), ?_, ?_, rfl⟩
    · rw [hstates]; rfl
    · simp only [finalJob, hstates]; rfl
  · rw [hres] at he'
    cases he'

/-- An environment whose extraction stage fails with message `boom`. -/
def failEnv : Env :=
  { zipResult := Except.error "boom", unrarAvailable := true, unrarSpawnErr := none,
    unrarExitCode := 0, tree := sampleTree, convertPy := okPy, mergePy := okPy }

/-- Witness for C10 at a concrete registry, job and failing environment. -/
theorem C10_failure_frame_witness :
    (getJob sampleP.jobs "5abc123def" =
      some (newJob 5 "abc123def" JobType.fullProcess ["docs.zip"])) ∧
    (∀ e, (processTrace failEnv sampleP "5abc123def" "docs.zip").2 = Except.error e →
      ∃ jpre, (jobStates failEnv sampleP "5abc123def" "docs.zip").dropLast.getLastD none
          = some jpre ∧
        finalJob failEnv sampleP "5abc123def" "docs.zip" =
          some { jpre with status := Status.failed, error := some e } ∧
        jpre.outputFile = none) :=
  ⟨by decide, C10_failure_frame failEnv sampleP "5abc123def" "docs.zip"
    5 "abc123def" ["docs.zip"] (by decide)⟩

/-! ### C7 -/

/-- C7: `getAllJobs` returns exactly the records of the registry (a
permutation of them), sorted by `createdAt` descending; being a pure function
of the registry snapshot, its tie-breaking is deterministic within a
snapshot. -/
theorem C7_getAllJobs_sorted (p : PDFProcessor) :
    List.Perm (getAllJobs p) p.jobs ∧
    List.Pairwise (fun a b => b.createdAt ≤ a.createdAt) (getAllJobs p) := by
  constructor
  · exact List.mergeSort_perm p.jobs _
  · have h := @List.sorted_mergeSort Job
      (fun a b => decide (b.createdAt ≤ a.createdAt))
      (fun a b c hab hbc => by
        simp only [decide_eq_true_eq] at hab hbc
        exact decide_eq_true (Nat.le_trans hbc hab))
      (fun a b => by
        rcases Nat.le_total b.createdAt a.createdAt with hle | hle <;> simp [hle])
      p.jobs
    exact h.imp (fun hab => of_decide_eq_true hab)

/-! ### C9 -/

/-- C9: document discovery returns exactly the files collected by the
recursive scan (same multiset, hence the same count K), sorted
lexicographically; and when the scan of the extraction directory collects
nothing, the owning run fails, leaving the job `failed` with the
"No HTML files found in the archive" error rather than succeeding empty. -/
theorem C9_discovery (dir : String) (es : List Entry) (env : Env)
    (p : PDFProcessor) (jobId ap : String) (now : Nat) (rand : String)
    (files : List String)
    (hj : getJob p.jobs jobId = some (newJob now rand JobType.fullProcess files))
    (hx : extractArchive env ap = Except.ok ())
    (hse : scanList (extractDirOf p jobId) env.tree = []) :
    (List.Perm (findHtmlFiles dir es) (scanList dir es) ∧
      List.Pairwise (fun a b : String => a ≤ b) (findHtmlFiles dir es) ∧
      (findHtmlFiles dir es).length = (scanList dir es).length) ∧
    ((processTrace env p jobId ap).2 = Except.error noHtmlMsg ∧
      ∀ j, finalJob env p jobId ap = some j →
        j.status = Status.failed ∧ j.error = some noHtmlMsg) := by
  have hperm : List.Perm (findHtmlFiles dir es) (scanList dir es) :=
    List.mergeSort_perm (scanList dir es) _
  refine ⟨⟨hperm, ?_, hperm.length_eq⟩, ?_⟩
  · have h := @List.sorted_mergeSort String
      (fun a b => decide (a ≤ b))
      (fun a b c hab hbc => by
        simp only [decide_eq_true_eq] at hab hbc
        exact decide_eq_true (le_trans hab hbc))
      (fun a b => by
        rcases le_total a b with hle | hle <;> simp [hle])
      (scanList dir es)
    exact h.imp (fun hab => of_decide_eq_true hab)
  · have hempty : findHtmlFiles (extractDirOf p jobId) env.tree = [] := by
      unfold findHtmlFiles
      rw [hse]
      exact List.mergeSort_nil
    rcases jobStates_cases env p jobId ap _ hj with
      ⟨e, hE, hres, hstates⟩ | ⟨hE, hf, hres, hstates⟩ | ⟨e, hE, hf, hC, hres, hstates⟩ |
      ⟨e, hE, hf, hC, hM, hres, hstates⟩ | ⟨hE, hf, hC, hM, hres, hstates⟩
    · rw [hx] at hE
      cases hE
    · refine ⟨hres, ?_⟩
      intro j hjf
      simp only [finalJob, hstates, List.getLastD] at hjf
      cases hjf
      exact ⟨rfl, rfl⟩
    · exact absurd hempty hf
    · exact absurd hempty hf
    · exact absurd hempty hf

/-- Witness for C9 at a concrete directory tree with no matching documents. -/
theorem C9_discovery_witness :
    (getJob sampleP.jobs "5abc123def" =
      some (newJob 5 "abc123def" JobType.fullProcess ["docs.zip"]) ∧
      extractArchive emptyEnv "docs.zip" = Except.ok () ∧
      scanList (extractDirOf sampleP "5abc123def") emptyEnv.tree = []) ∧
    ((List.Perm (findHtmlFiles "/app/uploads/extracted_5abc123def" emptyEnv.tree)
        (scanList "/app/uploads/extracted_5abc123def" emptyEnv.tree) ∧
      List.Pairwise (fun a b : String => a ≤ b)
        (findHtmlFiles "/app/uploads/extracted_5abc123def" emptyEnv.tree) ∧
      (findHtmlFiles "/app/uploads/extracted_5abc123def" emptyEnv.tree).length =
        (scanList "/app/uploads/extracted_5abc123def" emptyEnv.tree).length) ∧
    ((processTrace emptyEnv sampleP "5abc123def" "docs.zip").2 =
        Except.error noHtmlMsg ∧
      ∀ j, finalJob emptyEnv sampleP "5abc123def" "docs.zip" = some j →
        j.status = Status.failed ∧ j.error = some noHtmlMsg)) :=
  ⟨⟨by decide, by rfl, by decide⟩,
    C9_discovery "/app/uploads/extracted_5abc123def" emptyEnv.tree emptyEnv sampleP
      "5abc123def" "docs.zip" 5 "abc123def" ["docs.zip"]
      (by decide) (by rfl) (by decide)⟩

/-! ### C1 -/

/-- C1 (evaluation at the failing input): `downloadFile` resolves a
parent-directory filename with `path.join` and serves the file it finds
there — for `../uploads/secret.pdf` it returns the path
`app/uploads/secret.pdf`, which does not lie under the managed output
directory `app/outputs`, instead of rejecting the request. -/
theorem C1_download_traversal_eval :
    downloadFile [["app", "uploads", "secret.pdf"]] ["app", "outputs"]
        "../uploads/secret.pdf" = some ["app", "uploads", "secret.pdf"] ∧
    underDir ["app", "outputs"] ["app", "uploads", "secret.pdf"] = false := by
  decide

/-! ### C8 -/

/-- C8 (counterexample): two `createJob` calls in the same millisecond
(time component 5) for which `Math.random` yields the same suffix return the
same id, so the returned ids are not always pairwise distinct. -/
theorem C8_id_collision :
    (createJob sampleP 5 "abc123def" JobType.fullProcess ["a.zip"]).1 =
      (createJob (createJob sampleP 5 "abc123def" JobType.fullProcess ["a.zip"]).2
        5 "abc123def" JobType.fullProcess ["b.zip"]).1 := by
  decide

/-- Equal-length prefixes: two concatenations differ whenever the prefixes or
the suffixes differ. -/
theorem append_inj_ne {s1 s2 r1 r2 : String} (hlen : s1.length = s2.length)
    (hne : s1 ≠ s2 ∨ r1 ≠ r2) : s1 ++ r1 ≠ s2 ++ r2 := by
  intro hc
  have hd : s1.data ++ r1.data = s2.data ++ r2.data := by
    have h := congrArg String.data hc
    simpa using h
  have hlen' : s1.data.length = s2.data.length := hlen
  obtain ⟨h1, h2⟩ := List.append_inj hd hlen'
  rcases hne with h | h
  · exact h (String.ext h1)
  · exact h (String.ext h2)

/-- C8 (amended): the ids returned by a sequence of `createJob` calls are
pairwise distinct provided the calls' time/random environment pairs are
pairwise distinct at the string level — in particular same-millisecond calls
whose random suffixes differ — and the time strings all have the same length
(as millisecond timestamps at any given epoch do).  Equality of the random
draw, as in the counterexample, is exactly the case the code cannot
distinguish. -/
theorem C8_amended_distinct_ids (p : PDFProcessor) (t : JobType)
    (fs : List String) (ps : List (Nat × String))
    (hne : List.Pairwise (fun a b : Nat × String =>
      toString a.1 ≠ toString b.1 ∨ a.2 ≠ b.2) ps)
    (hlen : ∀ a ∈ ps, ∀ b ∈ ps, (toString a.1).length = (toString b.1).length) :
    List.Pairwise (fun x y : String => x ≠ y)
      (ps.map (fun q => (createJob p q.1 q.2 t fs).1)) := by
  rw [List.pairwise_map]
  refine hne.imp_of_mem ?_
  intro a b ha hb hr
  exact append_inj_ne (hlen a ha b hb) hr

/-- Witness for the amended C8: three calls, two inside the same millisecond
with different random suffixes, one in a later millisecond. -/
theorem C8_amended_distinct_ids_witness :
    (List.Pairwise (fun a b : Nat × String =>
        toString a.1 ≠ toString b.1 ∨ a.2 ≠ b.2)
        [(5, "aaa111bbb"), (5, "ccc222ddd"), (6, "aaa111bbb")] ∧
      ∀ a ∈ [(5, "aaa111bbb"), (5, "ccc222ddd"), (6, "aaa111bbb")],
        ∀ b ∈ [(5, "aaa111bbb"), (5, "ccc222ddd"), (6, "aaa111bbb")],
          (toString a.1).length = (toString b.1).length) ∧
    List.Pairwise (fun x y : String => x ≠ y)
      ([(5, "aaa111bbb"), (5, "ccc222ddd"), (6, "aaa111bbb")].map
        (fun q => (createJob sampleP q.1 q.2 JobType.fullProcess ["a.zip"]).1)) :=
  ⟨⟨by decide, by decide⟩,
    C8_amended_distinct_ids sampleP JobType.fullProcess ["a.zip"]
      [(5, "aaa111bbb"), (5, "ccc222ddd"), (6, "aaa111bbb")]
      (by decide) (by decide)⟩
